import Mathlib

/-!
Shallow embedding of the pyhs HandlerSocket client (connection pool,
wire codec, request builders) and verification of its specification claims.

Python strings that travel over the wire are modelled as lists of byte
values (`List Nat`); the absent-value sentinel `None` is modelled as
`Option.none`.  Dictionaries are modelled as association lists.  The real
socket layer is modelled by a `World` oracle that fixes, for every
connection of the pool, the outcome of `connect` and of a full
send/readline exchange; `random.shuffle` is modelled by passing the
shuffled candidate order as an explicit argument.
-/

namespace PyHS

/-- Error taxonomy of the client, modelling the Python exception types that
the source can raise (`exceptions.py` plus the built-in `ValueError`,
`KeyError`, `IndexError`, `RuntimeError`, `AttributeError`). -/
inductive PErr where
  | valueError (msg : String)
  | opError (msg : String)
  | connError (msg : String)
  | recovError (msg : String)
  | keyError
  | runtimeError (msg : String)
  | attrError (msg : String)
  | indexError
  deriving DecidableEq, Repr

/-- A `ConnectionError` in the Python sense: `RecoverableConnectionError`
subclasses `ConnectionError`, so both are caught by `except ConnectionError`. -/
def isConnErr : PErr → Bool
  | .connError _ => true
  | .recovError _ => true
  | _ => false

/-- Matches exactly `OperationalError`. -/
def isOpError : PErr → Bool
  | .opError _ => true
  | _ => false

/-- Matches exactly `RecoverableConnectionError`. -/
def isRecov : PErr → Bool
  | .recovError _ => true
  | _ => false

/-- Matches exactly `ValueError`. -/
def isValueError : PErr → Bool
  | .valueError _ => true
  | _ => false

/-- Body of `utils.encode`'s loop: each byte in [0x00, 0x0f] is replaced by
the two-byte escape 0x01 followed by (byte OR 0x40); all other bytes pass
through unchanged. -/
def encodeBytes : List Nat → List Nat
  | [] => []
  | b :: rest => (if b ≤ 0xf then [1, b ||| 0x40] else [b]) ++ encodeBytes rest

/-- Model of `utils.encode`: `None` encodes to the single NUL byte,
otherwise the byte string is escaped by `encodeBytes`. -/
def encode : Option (List Nat) → List Nat
  | none => [0]
  | some v => encodeBytes v

/-- Body of `utils.decode`'s loop: a 0x01 byte is an escape lead; if the
following byte is in [0x40, 0x4f] it is emitted XOR 0x40, any other
follower is passed through after the literal 0x01, and a trailing 0x01
with no follower is emitted literally (the `StopIteration` branch). -/
def decodeBytes : List Nat → List Nat
  | [] => []
  | b :: rest =>
    if b = 1 then
      match rest with
      | [] => [1]
      | nc :: rest' =>
        if 0x40 ≤ nc ∧ nc ≤ 0x4f then (nc ^^^ 0x40) :: decodeBytes rest'
        else 1 :: nc :: decodeBytes rest'
    else b :: decodeBytes rest

/-- Model of `utils.decode`: the single NUL byte decodes to `None`,
otherwise the escape scheme is undone by `decodeBytes`. -/
def decode (value : List Nat) : Option (List Nat) :=
  if value = [0] then none else some (decodeBytes value)

/-- Model of `utils.check_columns` on a typed list: Python checks that the
argument is iterable and has nonzero length; for a Lean list only the
length check is meaningful. -/
def check_columns {α : Type} (columns : List α) : Bool :=
  !columns.isEmpty

/-- Model of `utils.retry_on_failure`: the wrapped operation is a function
from the invocation number (0 = first call, 1 = retry) to its outcome.
The decorator invokes the operation once; only a `RecoverableConnectionError`
from that first invocation triggers exactly one re-invocation, whose result
(success or failure) is returned as-is. -/
def retry_on_failure {α : Type} (f : Nat → Except PErr α) : Except PErr α :=
  match f 0 with
  | .error (.recovError _) => f 1
  | r => r

/-- Model of Python's `str.split('\t')` on a byte string (tab = byte 9):
splitting the empty string yields one empty token, and every tab starts a
new token. -/
def splitTab : List Nat → List (List Nat)
  | [] => [[]]
  | b :: rest =>
    let r := splitTab rest
    if b = 9 then [] :: r
    else
      match r with
      | [] => [[b]]
      | t :: ts => (b :: t) :: ts

/-- Accumulator loop for `bytesToNat`. -/
def bytesToNatAux : List Nat → Nat → Option Nat
  | [], acc => some acc
  | b :: rest, acc =>
    if 48 ≤ b ∧ b ≤ 57 then bytesToNatAux rest (acc * 10 + (b - 48)) else none

/-- Model of Python's `int()` applied to a protocol token: parses a
canonical non-negative decimal digit string, failing (Python `ValueError`)
on an empty token or any non-digit byte. -/
def bytesToNat (l : List Nat) : Option Nat :=
  if l.isEmpty then none else bytesToNatAux l 0

/-- Model of Python's `str(n)` for a non-negative integer, as decimal
digit bytes. -/
def natToBytes (n : Nat) : List Nat :=
  (Nat.toDigits 10 n).map Char.toNat

/-- Renders ASCII message bytes as a Lean string (used only to carry
server error text inside exception messages). -/
def bytesStr (l : List Nat) : String :=
  ⟨l.map Char.ofNat⟩

/-- Fuel-driven body of `groupCols`; the fuel is the initial list length,
which bounds the number of produced rows. -/
def groupColsAux {α : Type} (n : Nat) : Nat → List α → List (List α)
  | 0, _ => []
  | fuel + 1, l =>
    if n = 0 ∨ l.length < n then []
    else l.take n :: groupColsAux n fuel (l.drop n)

/-- Model of `list(zip(*[iter(tokens)]*n))` from `_parse_response`: the
shared iterator hands `n` consecutive items to each output row, `zip`
stops at the first row it cannot complete (silently discarding the
trailing `length % n` items), and `n = 0` yields no rows at all. -/
def groupCols {α : Type} (n : Nat) (l : List α) : List (List α) :=
  groupColsAux n l.length l

/-- Model of `HandlerSocket._parse_response`: split the raw line on tabs,
check the status token, read the declared column count, decode the
remaining tokens and group them into rows. A nonzero status raises
`OperationalError` with the third token as message when present; a
malformed integer token raises `ValueError` (from `int()`); a frame with
no second token raises `IndexError` (from `tokens[1]`). -/
def _parse_response (raw : List Nat) : Except PErr (List (List (Option (List Nat)))) :=
  let tokens := splitTab raw
  match tokens with
  | [] => .error (.opError "HandlerSocket returned an error code: Unknown remote error")
  | t0 :: rest =>
    match bytesToNat t0 with
    | none => .error (.valueError "invalid literal for int")
    | some s =>
      if s ≠ 0 then
        .error (.opError ("HandlerSocket returned an error code: " ++
          (match rest with
           | _ :: e :: _ => bytesStr e
           | _ => "Unknown remote error")))
      else
        match rest with
        | [] => .error .indexError
        | t1 :: data =>
          match bytesToNat t1 with
          | none => .error (.valueError "invalid literal for int")
          | some n => .ok (groupCols n (data.map decode))

/-- Connection state: `sock` models whether a socket object is attached
(`self.socket is not None`), `retry_time` the backoff deadline. -/
structure ConnState where
  sock : Bool
  retry_time : Nat
  deriving DecidableEq, Repr

/-- Fixed constant `Connection.RETRY_INTERVAL`. -/
def RETRY_INTERVAL : Nat := 30

/-- Fixed constant `HandlerSocket.RETRY_LIMIT`. -/
def RETRY_LIMIT : Nat := 5

/-- Outcome of one full send/readline exchange on a connection, as fixed
by the world oracle: a reply line, a socket-level failure during send or
read (which disconnects the socket and arms backoff via `_die`), or a
zero-length receive (peer closed; raises `RecoverableConnectionError`
without touching the socket handle). -/
inductive RespOutcome where
  | reply (raw : List Nat)
  | connFail (msg : String)
  | peerClosed

/-- World oracle for the pool: the outcome of opening a fresh socket on
each connection (`none` = success, `some msg` = `socket.error msg`), and
the outcome of a request exchange on each connection. -/
structure World where
  connectErr : Nat → Option String
  resp : Nat → List (List Nat) → RespOutcome

/-- Pool state of `HandlerSocket` (thread-local instance): connection
states, the `index_map` dict (index id to connection position), the
`index_cache` dict (cache key to index id), the id counter and the last
connection exception cached by `_get_connection`. -/
structure PoolState where
  conns : List ConnState
  index_map : List (Nat × Nat)
  index_cache : List (List Nat × Nat)
  current_index_id : Nat
  last_exc : Option String
  deriving Repr

/-- Dict read: `d.get(k)` on an association list. -/
def dget (d : List (Nat × Nat)) (k : Nat) : Option Nat :=
  (d.find? (fun p => p.1 == k)).map (·.2)

/-- Dict membership: `k in d`. -/
def dhas (d : List (Nat × Nat)) (k : Nat) : Bool :=
  (d.find? (fun p => p.1 == k)).isSome

/-- Dict delete: `del d[k]` (first binding removed). -/
def ddel (d : List (Nat × Nat)) (k : Nat) : List (Nat × Nat) :=
  d.eraseP (fun p => p.1 == k)

/-- Dict write: `d[k] = v`. -/
def dset (d : List (Nat × Nat)) (k v : Nat) : List (Nat × Nat) :=
  (k, v) :: ddel d k

/-- Cache dict read for byte-string keys. -/
def cget (d : List (List Nat × Nat)) (k : List Nat) : Option Nat :=
  (d.find? (fun p => p.1 == k)).map (·.2)

/-- Cache dict write for byte-string keys. -/
def cset (d : List (List Nat × Nat)) (k : List Nat) (v : Nat) : List (List Nat × Nat) :=
  (k, v) :: d.eraseP (fun p => p.1 == k)

/-- Reads a connection state from the pool (connection ids index
`conns`; the source holds object references, which are always valid). -/
def getConn (st : PoolState) (i : Nat) : ConnState :=
  st.conns.getD i ⟨false, 0⟩

/-- Writes back a mutated connection state. -/
def setConn (st : PoolState) (i : Nat) (c : ConnState) : PoolState :=
  { st with conns := st.conns.set i c }

/-- Model of `Connection.is_ready`: false while a backoff deadline is
armed and still in the future; otherwise clears the deadline and reports
ready. Returns the updated connection state alongside the answer. -/
def is_ready (now : Nat) (c : ConnState) : Bool × ConnState :=
  if c.retry_time ≠ 0 ∧ now < c.retry_time then (false, c)
  else (true, { c with retry_time := 0 })

/-- Model of `Connection.connect`: no-op when a socket is attached;
otherwise opens a socket per the world oracle. On `socket.error`, `_die`
arms the backoff deadline, disconnects, and raises `ConnectionError`
(returned here as the message that becomes `e.args[0]`). -/
def connectConn (w : World) (now cid : Nat) (c : ConnState) : ConnState × Option String
  :=
  if c.sock then (c, none)
  else
    match w.connectErr cid with
    | none => ({ c with sock := true }, none)
    | some m => (⟨false, now + RETRY_INTERVAL⟩, some ("Connection error: " ++ m))

/-- Model of the `for key, value in self.index_cache.items(): if value ==
index_id: del self.index_cache[key]` loop in `purge_index`, with Python 3
dict-iterator semantics: the iterator walks the original items, and the
first `next()` call after any deletion raises `RuntimeError` ("dictionary
changed size during iteration"), including the final exhausting call.
Arguments: target id, remaining items to iterate, whether a deletion has
happened, and the current dict. Returns the dict as mutated so far plus
the exception, if one was raised. -/
def purgeCacheLoop (iid : Nat) :
    List (List Nat × Nat) → Bool → List (List Nat × Nat) →
    List (List Nat × Nat) × Option PErr
  | [], mutated, d =>
    (d, if mutated then some (.runtimeError "dictionary changed size during iteration") else none)
  | (k, v) :: rest, mutated, d =>
    if mutated then (d, some (.runtimeError "dictionary changed size during iteration"))
    else if v = iid then purgeCacheLoop iid rest true (d.eraseP (fun p => p.1 == k))
    else purgeCacheLoop iid rest false d

/-- Model of `HandlerSocket.purge_index`: `del self.index_map[index_id]`
(raising `KeyError` when absent) followed by the cache-deletion loop.
Returns the state as mutated when control leaves the method, plus the
exception if one was raised. -/
def purge_index (st : PoolState) (iid : Nat) : PoolState × Option PErr :=
  if dhas st.index_map iid = false then (st, some .keyError)
  else
    let st1 := { st with index_map := ddel st.index_map iid }
    match purgeCacheLoop iid st1.index_cache false st1.index_cache with
    | (cache2, perr) => ({ st1 with index_cache := cache2 }, perr)

/-- Retry loop of `HandlerSocket._get_connection` (`for i in
range(max(RETRY_LIMIT, len(connections))) ... else: raise`). `forceIid`
is `some iid` when `force_index` was set (the only case in which the
except-branch purges and re-raises), `conn` the current candidate,
`cands` the not-yet-popped shuffled candidates. When the range is
exhausted the code raises `exception(self.last_connection_exception)`;
with no cached exception that lambda evaluates `None.args` and so raises
`AttributeError` instead of the intended `ConnectionError`. -/
def gcLoop (w : World) (now : Nat) (forceIid : Option Nat) :
    Nat → Nat → List Nat → PoolState → Except PErr Nat × PoolState
  | 0, _, _, st =>
    ((match st.last_exc with
      | some m => .error (.connError ("Could not connect to any of given servers: " ++ m))
      | none => .error (.attrError "AttributeError: NoneType object has no attribute args")), st)
  | fuel + 1, conn, cands, st =>
    match is_ready now (getConn st conn) with
    | (ready, c1) =>
      let st1 := setConn st conn c1
      if ready then
        match connectConn w now conn c1 with
        | (c2, none) => (.ok conn, setConn st1 conn c2)
        | (c2, some msg) =>
          let st2 := { setConn st1 conn c2 with last_exc := some msg }
          match forceIid with
          | some iid =>
            (match purge_index st2 iid with
             | (st3, some pe) => (.error pe, st3)
             | (st3, none) =>
               if cands.isEmpty then
                 ((match st3.last_exc with
                   | some m =>
                     .error (.connError ("Could not connect to any of given servers: " ++ m))
                   | none =>
                     .error (.attrError "AttributeError: NoneType object has no attribute args")),
                  st3)
               else
                 (.error (.recovError "Could not use connection with given index id"), st3))
          | none =>
            match cands.reverse with
            | [] => gcLoop w now forceIid fuel conn cands st2
            | nc :: revRest => gcLoop w now forceIid fuel nc revRest.reverse st2
      else
        match cands.reverse with
        | [] => gcLoop w now forceIid fuel conn cands st1
        | nc :: revRest => gcLoop w now forceIid fuel nc revRest.reverse st1

/-- Non-affinity entry of `_get_connection`: `conn = connections.pop()`
(raising `IndexError` on an empty pool), then the retry loop; on success
the id-to-connection relation is recorded when an index id was given. -/
def _gc_fresh (w : World) (now : Nat) (order : List Nat) (st : PoolState)
    (index_id : Option Nat) : Except PErr Nat × PoolState :=
  match order.reverse with
  | [] => (.error .indexError, st)
  | c0 :: revRest =>
    match gcLoop w now none (max RETRY_LIMIT revRest.reverse.length) c0 revRest.reverse st with
    | (.ok conn, st') =>
      (.ok conn,
       { st' with index_map :=
          match index_id with
          | some iid => dset st'.index_map iid conn
          | none => st'.index_map })
    | r => r

/-- Model of `HandlerSocket._get_connection`. `order` is the shuffled
copy of the pool (`random.shuffle` made explicit). If the index id is
registered, the search starts from (and, with `force_index`, is limited
to) its owning connection, and the full shuffled list remains as
fall-over candidates; an unregistered id with `force_index` raises
`OperationalError` at once. On success the chosen connection is recorded
in `index_map` for the id. -/
def _get_connection (w : World) (now : Nat) (order : List Nat) (st : PoolState)
    (index_id : Option Nat) (force_index : Bool) : Except PErr Nat × PoolState :=
  match index_id with
  | some iid =>
    match dget st.index_map iid with
    | some owner =>
      (match gcLoop w now (if force_index then some iid else none)
          (max RETRY_LIMIT order.length) owner order st with
       | (.ok conn, st') => (.ok conn, { st' with index_map := dset st'.index_map iid conn })
       | r => r)
    | none =>
      if force_index then
        (.error (.opError "There is no connection with given index id"), st)
      else _gc_fresh w now order st (some iid)
  | none =>
    if force_index then
      (.error (.opError "There is no connection with given index id"), st)
    else _gc_fresh w now order st none

/-- Model of `HandlerSocket._call`: resolve a connection, perform the
send/readline exchange per the world oracle, parse the response. A
`ConnectionError` during the exchange first applies `_die`'s effect on
the connection (for a socket-level failure), then purges the index
registration and re-raises; a `RecoverableConnectionError` from a
zero-length receive leaves the connection untouched but is also caught,
purged and re-raised. `OperationalError` from parsing propagates without
purging. An exception raised by `purge_index` itself propagates in place
of the connection error. -/
def _call (w : World) (now : Nat) (order : List Nat) (st : PoolState) (iid : Nat)
    (query : List (List Nat)) (force_index : Bool) :
    Except PErr (List (List (Option (List Nat)))) × PoolState :=
  match _get_connection w now order st (some iid) force_index with
  | (.error e, st') => (.error e, st')
  | (.ok conn, st') =>
    match w.resp conn query with
    | .reply raw =>
      (match _parse_response raw with
       | .error e => (.error e, st')
       | .ok rows => (.ok rows, st'))
    | .connFail msg =>
      let st2 := setConn st' conn ⟨false, now + RETRY_INTERVAL⟩
      (match purge_index st2 iid with
       | (st3, some pe) => (.error pe, st3)
       | (st3, none) => (.error (.connError msg), st3))
    | .peerClosed =>
      (match purge_index st' iid with
       | (st3, some pe) => (.error pe, st3)
       | (st3, none) =>
         (.error (.recovError "Connection closed on the remote end."), st3))

/-- The default index name: `index_name or 'PRIMARY'` (an empty name is
falsy and also defaults). -/
def PRIMARY : List Nat := [80, 82, 73, 77, 65, 82, 89]

/-- Applies Python's `index_name or 'PRIMARY'`. -/
def primary_or (index_name : Option (List Nat)) : List Nat :=
  match index_name with
  | some s => if s = [] then PRIMARY else s
  | none => PRIMARY

/-- The cache key of `get_index_id`: fields joined with a comma, then
db, table, index name and the joined fields joined with colons. -/
def index_cache_key (db table : List Nat) (fields : List (List Nat))
    (index_name : Option (List Nat)) : List Nat :=
  List.intercalate [58] [db, table, primary_or index_name, List.intercalate [44] fields]

/-- Model of `HandlerSocket._open_index`: the `P` open-index query. The
`fields` argument is the already comma-joined field string. -/
def _open_index (w : World) (now : Nat) (order : List Nat) (st : PoolState)
    (index_id : Nat) (db table fields index_name : List Nat) :
    Except PErr (List (List (Option (List Nat)))) × PoolState :=
  _call w now order st index_id
    ([[80], natToBytes index_id] ++
      [encode (some db), encode (some table), encode (some index_name), encode (some fields)])
    false

/-- Model of `HandlerSocket.get_index_id`: on a cache hit return the
cached id; on a miss open the index on the current counter value and,
only on success, record both cache entries and advance the counter. -/
def get_index_id (w : World) (now : Nat) (order : List Nat) (st : PoolState)
    (db table : List Nat) (fields : List (List Nat)) (index_name : Option (List Nat)) :
    Except PErr Nat × PoolState :=
  let iname := primary_or index_name
  let fstr := List.intercalate [44] fields
  let cache_key := List.intercalate [58] [db, table, iname, fstr]
  match cget st.index_cache cache_key with
  | some iid => (.ok iid, st)
  | none =>
    match _open_index w now order st st.current_index_id db table fstr iname with
    | (.error e, st') => (.error e, st')
    | (.ok _, st') =>
      let iid := st'.current_index_id
      (.ok iid,
       { st' with
          index_cache := cset st'.index_cache cache_key iid,
          current_index_id := iid + 1 })

/-- The comparison operators accepted by find/find_modify
(`HandlerSocket.FIND_OPERATIONS`), as byte strings. -/
def FIND_OPERATIONS : List (List Nat) :=
  [[61], [62], [62, 61], [60], [60, 61]]

/-- The modify operators accepted by find_modify
(`WriteSocket.MODIFY_OPERATIONS`): U, D, +, -, each optionally suffixed
with a question mark. -/
def MODIFY_OPERATIONS : List (List Nat) :=
  [[85], [68], [43], [45], [85, 63], [68, 63], [43, 63], [45, 63]]

/-- The modify operators that require a non-empty modify-column list
(the literal tuple `('U', '+', '-', 'U?', '+?', '-?')` in
`find_modify`). -/
def MODIFY_VALUE_OPERATIONS : List (List Nat) :=
  [[85], [43], [45], [85, 63], [43, 63], [45, 63]]

/-- Model of `ReadSocket.find`: validate, build the query, execute with
affinity required. -/
def find (w : World) (now : Nat) (order : List Nat) (st : PoolState) (index_id : Nat)
    (operation : List Nat) (columns : List (Option (List Nat))) (limit offset : Nat) :
    Except PErr (List (List (Option (List Nat)))) × PoolState :=
  if operation ∉ FIND_OPERATIONS then
    (.error (.valueError "Operation is not supported."), st)
  else if check_columns columns = false then
    (.error (.valueError "Columns must be a non-empty iterable."), st)
  else
    _call w now order st index_id
      ([natToBytes index_id, operation, natToBytes columns.length] ++
        columns.map encode ++ [natToBytes limit, natToBytes offset])
      true

/-- Model of `WriteSocket.find_modify`: validate the comparison and
modify operators and the column lists, build the query, execute with
affinity required. -/
def find_modify (w : World) (now : Nat) (order : List Nat) (st : PoolState) (index_id : Nat)
    (operation : List Nat) (columns : List (Option (List Nat)))
    (modify_operation : List Nat) (modify_columns : List (Option (List Nat)))
    (limit offset : Nat) :
    Except PErr (List (List (Option (List Nat)))) × PoolState :=
  if operation ∉ FIND_OPERATIONS ∨ modify_operation ∉ MODIFY_OPERATIONS then
    (.error (.valueError "Operation is not supported."), st)
  else if check_columns columns = false then
    (.error (.valueError "Columns must be a non-empty iterable."), st)
  else if modify_operation ∈ MODIFY_VALUE_OPERATIONS ∧ check_columns modify_columns = false then
    (.error (.valueError "Modify_columns must be a non-empty iterable for update operation"), st)
  else
    _call w now order st index_id
      ([natToBytes index_id, operation, natToBytes columns.length] ++
        columns.map encode ++
        [natToBytes limit, natToBytes offset, modify_operation] ++
        modify_columns.map encode)
      true

/-- Model of `WriteSocket.insert`: validate, build the `+` insertion
query, execute with affinity required, return `True` on success. -/
def insert (w : World) (now : Nat) (order : List Nat) (st : PoolState) (index_id : Nat)
    (columns : List (Option (List Nat))) : Except PErr Bool × PoolState :=
  if check_columns columns = false then
    (.error (.valueError "Columns must be a non-empty iterable."), st)
  else
    match _call w now order st index_id
        ([natToBytes index_id, [43], natToBytes columns.length] ++ columns.map encode)
        true with
    | (.ok _, st') => (.ok true, st')
    | (.error e, st') => (.error e, st')

/-- One `recv` outcome handed to `readline` by the transport: a data
chunk (possibly empty, modelling a peer-initiated close) or a
socket-level error. -/
inductive RecvOutcome where
  | data (bytes : List Nat)
  | sockErr (msg : String)

/-- Model of `Connection.readline`'s accumulation loop over a finite
script of `recv` outcomes. Returns `none` when the script is exhausted
before a line-feed arrives (the blocking call would not return). A
zero-length receive raises `RecoverableConnectionError` leaving the
connection state untouched; a socket error goes through `_die`
(backoff armed, socket detached, `ConnectionError`). -/
def readline_go (now : Nat) (c : ConnState) :
    List Nat → List RecvOutcome → Option (Except PErr (List Nat) × ConnState)
  | buffer, script =>
    match buffer.findIdx? (fun b => b == 10) with
    | some i => some (.ok (buffer.take i), c)
    | none =>
      match script with
      | [] => none
      | .data [] :: _ =>
        some (.error (.recovError "Connection closed on the remote end."), c)
      | .data bs :: rest => readline_go now c (buffer ++ bs) rest
      | .sockErr m :: _ =>
        some (.error (.connError ("Read error: " ++ m)), ⟨false, now + RETRY_INTERVAL⟩)

/-- Model of `Connection.readline` (initial empty buffer). -/
def readline (now : Nat) (c : ConnState) (script : List RecvOutcome) :
    Option (Except PErr (List Nat) × ConnState) :=
  readline_go now c [] script

/-- Classifies the error component of a result without inspecting its
message. -/
def resultErr {α : Type} (r : Except PErr α) (p : PErr → Bool) : Bool :=
  match r with
  | .error e => p e
  | .ok _ => false

/-- World in which every connect succeeds and every exchange returns an
empty reply. -/
def wQuiet : World := ⟨fun _ => none, fun _ _ => .reply []⟩

/-- World for the affinity counterexample: connection 1 answers with the
marker row B (status 0, one column), every other connection with the
marker row A. -/
def wTwo : World :=
  ⟨fun _ => none,
   fun cid _ => if cid = 1 then .reply [48, 9, 49, 9, 66] else .reply [48, 9, 49, 9, 65]⟩

/-- World whose every exchange returns the error frame with status 1 and
message byte o. -/
def wErrResp : World := ⟨fun _ => none, fun _ _ => .reply [49, 9, 49, 9, 111]⟩

/-- World whose every exchange fails at the socket level. -/
def wConnFail : World := ⟨fun _ => none, fun _ _ => .connFail "boom"⟩

/-- A single-connection pool with no registrations. -/
def stFresh : PoolState := ⟨[⟨false, 0⟩], [], [], 0, none⟩

/-- A single-connection pool whose connection is in backoff until time
100, with no connection exception cached. -/
def stBackoff : PoolState := ⟨[⟨false, 100⟩], [], [], 0, none⟩

/-- Two-connection pool in which index 0 is registered to connection 0,
and connection 0 is in backoff until time 100. -/
def stOwnerBackoff : PoolState := ⟨[⟨false, 100⟩, ⟨false, 0⟩], [(0, 0)], [([107], 0)], 1, none⟩

/-- Single-connection pool in which index 0 is registered to the ready
connection 0. -/
def stOwnerReady : PoolState := ⟨[⟨false, 0⟩], [(0, 0)], [([107], 0)], 1, none⟩

/-- Pool state on which `purge_index(0)` must clear id 0 everywhere: the
id is registered and two cache keys map to it. -/
def stTwoKeys : PoolState := ⟨[], [(0, 0)], [([107, 49], 0), ([107, 50], 0)], 1, none⟩

/-- An uneven success frame: status 0, two declared columns, three data
tokens a, b, c. -/
def rawUneven : List Nat := [48, 9, 50, 9, 97, 9, 98, 9, 99]

/-- Probe operation for the retry decorator: recoverable failure on the
first invocation, success on the retry. -/
def retryProbe : Nat → Except PErr Nat := fun n =>
  if n = 0 then .error (.recovError "peer closed") else .ok 42

/-! Theorems. -/

/-- Arithmetic facts about the escape byte: for an escapable byte the
escaped form lands in [0x40, 0x4f] and XOR 0x40 restores the byte. -/
theorem escape_byte_facts (b : Nat) (h : b ≤ 15) :
    64 ≤ b ||| 64 ∧ b ||| 64 ≤ 79 ∧ (b ||| 64) ^^^ 64 = b := by
  interval_cases b <;> decide

/-- The decode loop undoes the encode loop on any byte string. -/
theorem decodeBytes_encodeBytes (v : List Nat) : decodeBytes (encodeBytes v) = v := by
  induction v with
  | nil => rfl
  | cons b rest ih =>
    by_cases hb : b ≤ 15
    · obtain ⟨h1, h2, h3⟩ := escape_byte_facts b hb
      simp [encodeBytes, decodeBytes, hb, h1, h2, h3, ih]
    · have hne : ¬b = 1 := by omega
      have henc : encodeBytes (b :: rest) = b :: encodeBytes rest := by
        simp [encodeBytes, hb]
      rw [henc, decodeBytes.eq_def]
      simp [hne, ih]

/-- The encode loop never produces the one-byte NUL string that `decode`
reserves for the absent-value sentinel. -/
theorem encodeBytes_ne_nul (v : List Nat) : encodeBytes v ≠ [0] := by
  cases v with
  | nil => simp [encodeBytes]
  | cons b rest =>
    by_cases hb : b ≤ 15
    · simp only [encodeBytes, if_pos hb, List.cons_append, List.nil_append]
      intro h
      simp at h
    · simp only [encodeBytes, if_neg hb, List.cons_append, List.nil_append]
      intro h
      simp at h
      omega

/-- C3 (confirmed): for every value that is either the absent-value
sentinel (`None`) or a byte string — including the empty string and
strings containing every byte of [0x00, 0x0f] — `decode (encode v) = v`. -/
theorem decode_encode_roundtrip (v : Option (List Nat)) : decode (encode v) = v := by
  cases v with
  | none => rfl
  | some l =>
    show decode (encodeBytes l) = some l
    unfold decode
    rw [if_neg (encodeBytes_ne_nul l), decodeBytes_encodeBytes]

/-- C8 (confirmed): the retry guard returns a first-invocation success
as-is; a recoverable connection error on the first invocation leads to
exactly one re-invocation whose outcome — success or any failure — is
returned unmodified; any non-recoverable first failure (terminal
connection, operational, validation errors) propagates unmodified. -/
theorem retry_on_failure_spec {α : Type} (f : Nat → Except PErr α) :
    (∀ a : α, f 0 = .ok a → retry_on_failure f = .ok a) ∧
    (∀ m : String, f 0 = .error (.recovError m) → retry_on_failure f = f 1) ∧
    (∀ e : PErr, isRecov e = false → f 0 = .error e → retry_on_failure f = .error e) := by
  refine ⟨fun a h => ?_, fun m h => ?_, fun e hrec h => ?_⟩
  · unfold retry_on_failure
    rw [h]
  · unfold retry_on_failure
    rw [h]
  · unfold retry_on_failure
    rw [h]
    cases e <;> first | rfl | simp [isRecov] at hrec

/-- Witness for C8: a concrete operation that fails recoverably once and
succeeds on the retry is re-invoked and its second result returned. -/
theorem retry_on_failure_spec_witness : retry_on_failure retryProbe = retryProbe 1 :=
  (retry_on_failure_spec retryProbe).2.1 "peer closed" rfl

/-- C5 counterexample: on a zero-length receive `readline` raises the
recoverable connection error but the connection still holds its socket
handle — it is not disconnected, contradicting the claim that the
connection is left without a socket handle. -/
theorem readline_peer_close_keeps_socket :
    readline 0 ⟨true, 0⟩ [RecvOutcome.data []] =
      some (.error (.recovError "Connection closed on the remote end."), ⟨true, 0⟩) ∧
    (⟨true, 0⟩ : ConnState).sock = true := ⟨rfl, rfl⟩

/-- C5 amended: `readline` on a zero-length receive fails with a
recoverable connection error and leaves the connection state (socket
handle and backoff deadline) exactly as it was; a socket-level receive
error goes through `_die`, clearing the socket handle and arming the
backoff deadline, and fails with a plain connection error. -/
theorem readline_failure_modes (now : Nat) (c : ConnState) (m : String)
    (rest : List RecvOutcome) :
    readline now c (RecvOutcome.data [] :: rest) =
      some (.error (.recovError "Connection closed on the remote end."), c) ∧
    readline now c (RecvOutcome.sockErr m :: rest) =
      some (.error (.connError ("Read error: " ++ m)), ⟨false, now + RETRY_INTERVAL⟩) :=
  ⟨rfl, rfl⟩

/-- C10 (confirmed): the cache key joins the fields with a comma and then
joins db, table, index name and the joined fields with colons, so the
distinct field lists a,b (one field containing a comma) and a, b (two
fields) — and likewise a db name containing a colon versus a table name
absorbing it — produce the same cache key, and `get_index_id` behaves
identically on them (in particular it returns the same index id). -/
theorem index_cache_key_collision :
    ([[97, 44, 98]] : List (List Nat)) ≠ [[97], [98]] ∧
    index_cache_key [100] [116] [[97, 44, 98]] none =
      index_cache_key [100] [116] [[97], [98]] none ∧
    index_cache_key [100, 58, 120] [116] [[102]] none =
      index_cache_key [100] [120, 58, 116] [[102]] none ∧
    ∀ (w : World) (now : Nat) (order : List Nat) (st : PoolState),
      get_index_id w now order st [100] [116] [[97, 44, 98]] none =
        get_index_id w now order st [100] [116] [[97], [98]] none := by
  refine ⟨by decide, by decide, by decide, fun w now order st => ?_⟩
  rfl

/-- C4 (code bug): purging a registered index whose cache keys exist
deletes cache keys while iterating the dict, which raises `RuntimeError`
under Python 3 dict-iterator semantics; the method aborts after deleting
the map entry and the first matching cache key, leaving the second key
still mapped to the purged id instead of terminating normally with all
of them removed. -/
theorem purge_index_dict_mutation_runtime_error :
    purge_index stTwoKeys 0 =
      (⟨[], [], [([107, 50], 0)], 1, none⟩,
       some (.runtimeError "dictionary changed size during iteration")) := rfl

/-- C7 (code bug): with every candidate skipped as not ready and no
connection exception ever cached, the exhaustion branch evaluates
`None.args` and raises `AttributeError` instead of the terminal
`ConnectionError` promised by the claim and by the method's docstring. -/
theorem get_connection_exhaustion_no_cause_attribute_error :
    (_get_connection wQuiet 50 [0] stBackoff none false).1 =
      .error (.attrError "AttributeError: NoneType object has no attribute args") := rfl

/-- C6 counterexample: a status-0 frame declaring 2 columns but carrying
3 data tokens parses successfully to a single complete row, silently
dropping the trailing token, instead of surfacing an error. -/
theorem parse_response_drops_trailing_token :
    _parse_response rawUneven = .ok [[some [97], some [98]]] ∧
    ((splitTab rawUneven).drop 2).length % 2 = 1 := ⟨rfl, rfl⟩

/-- C1 counterexample: index 0 is registered to connection 0, which is in
backoff; a find call with affinity required is silently routed to
connection 1 (the reply marker row B proves the exchange happened on
connection 1) and the registration is rebound to connection 1, while the
registration existed throughout — contradicting the claim that such a
call is never routed to another pool member. -/
theorem find_routed_to_non_owner :
    dget stOwnerBackoff.index_map 0 = some 0 ∧
    (find wTwo 50 [0, 1] stOwnerBackoff 0 [61] [some [49]] 1 0).1 = .ok [[some [66]]] ∧
    dget (find wTwo 50 [0, 1] stOwnerBackoff 0 [61] [some [49]] 1 0).2.index_map 0 = some 1 :=
  ⟨rfl, rfl, rfl⟩

/-- C2 counterexample: on a cache miss where the server answers the open
request with an error response, `get_index_id` propagates the
`OperationalError` but leaves the id-to-connection map holding the new
id (registered during connection resolution) while the key cache holds
nothing — a partial registration, contradicting the both-or-neither
claim. -/
theorem get_index_id_error_response_partial_registration :
    resultErr (get_index_id wErrResp 0 [0] stFresh [100] [116] [[102]] none).1 isOpError = true ∧
    dhas (get_index_id wErrResp 0 [0] stFresh [100] [116] [[102]] none).2.index_map 0 = true ∧
    (get_index_id wErrResp 0 [0] stFresh [100] [116] [[102]] none).2.index_cache = [] ∧
    (get_index_id wErrResp 0 [0] stFresh [100] [116] [[102]] none).2.current_index_id = 0 :=
  ⟨rfl, rfl, rfl, rfl⟩

/-- With sufficient fuel, the zip-grouping produces exactly length / n
rows. -/
theorem groupColsAux_length {α : Type} (n : Nat) (hn : 0 < n) (fuel : Nat) :
    ∀ l : List α, l.length ≤ fuel → (groupColsAux n fuel l).length = l.length / n := by
  induction fuel with
  | zero =>
    intro l h
    have hl : l = [] := List.eq_nil_of_length_eq_zero (Nat.le_zero.mp h)
    subst hl
    simp [groupColsAux]
  | succ fuel ih =>
    intro l h
    by_cases hlt : l.length < n
    · rw [groupColsAux, if_pos (Or.inr hlt), Nat.div_eq_of_lt hlt]
      rfl
    · have hle : n ≤ l.length := Nat.le_of_not_lt hlt
      rw [groupColsAux, if_neg (by omega : ¬(n = 0 ∨ l.length < n))]
      have hdrop : (l.drop n).length ≤ fuel := by
        simp only [List.length_drop]
        omega
      rw [List.length_cons, ih (l.drop n) hdrop]
      simp only [List.length_drop]
      rw [Nat.div_eq_sub_div hn hle]

/-- With sufficient fuel, every produced row has exactly n entries. -/
theorem groupColsAux_row_length {α : Type} (n : Nat) (hn : 0 < n) (fuel : Nat) :
    ∀ l : List α, l.length ≤ fuel → ∀ r ∈ groupColsAux n fuel l, r.length = n := by
  induction fuel with
  | zero =>
    intro l _ r hr
    simp [groupColsAux] at hr
  | succ fuel ih =>
    intro l h r hr
    by_cases hlt : l.length < n
    · rw [groupColsAux, if_pos (Or.inr hlt)] at hr
      simp at hr
    · have hle : n ≤ l.length := Nat.le_of_not_lt hlt
      rw [groupColsAux, if_neg (by omega : ¬(n = 0 ∨ l.length < n))] at hr
      rw [List.mem_cons] at hr
      rcases hr with hr | hr
      · subst hr
        rw [List.length_take]
        omega
      · exact ih (l.drop n) (by simp only [List.length_drop]; omega) r hr

/-- With sufficient fuel, the concatenation of the produced rows is the
longest complete-row prefix: the trailing length % n items are dropped. -/
theorem groupColsAux_join {α : Type} (n : Nat) (hn : 0 < n) (fuel : Nat) :
    ∀ l : List α, l.length ≤ fuel →
      (groupColsAux n fuel l).flatten = l.take (n * (l.length / n)) := by
  induction fuel with
  | zero =>
    intro l h
    have hl : l = [] := List.eq_nil_of_length_eq_zero (Nat.le_zero.mp h)
    subst hl
    simp [groupColsAux]
  | succ fuel ih =>
    intro l h
    by_cases hlt : l.length < n
    · rw [groupColsAux, if_pos (Or.inr hlt), Nat.div_eq_of_lt hlt]
      simp
    · have hle : n ≤ l.length := Nat.le_of_not_lt hlt
      rw [groupColsAux, if_neg (by omega : ¬(n = 0 ∨ l.length < n))]
      have hdrop : (l.drop n).length ≤ fuel := by
        simp only [List.length_drop]
        omega
      rw [List.flatten_cons, ih (l.drop n) hdrop]
      simp only [List.length_drop]
      rw [Nat.div_eq_sub_div hn hle, Nat.mul_add, Nat.mul_one,
        Nat.add_comm (n * ((l.length - n) / n)) n, List.take_add]

/-- C6 amended: a success frame never fails on row grouping; the decoded
tokens are grouped into exactly length / N complete rows of N columns
each, and the trailing length mod N tokens are silently dropped (the
concatenation of the result is the longest complete-row prefix of the
decoded token list) — no error is surfaced for an uneven frame. -/
theorem parse_response_row_grouping (raw t0 t1 : List Nat) (ts : List (List Nat)) (n : Nat)
    (hsplit : splitTab raw = t0 :: t1 :: ts)
    (h0 : bytesToNat t0 = some 0) (h1 : bytesToNat t1 = some n) (hn : 0 < n) :
    _parse_response raw = .ok (groupCols n (ts.map decode)) ∧
    (groupCols n (ts.map decode)).length = ts.length / n ∧
    (∀ r ∈ groupCols n (ts.map decode), r.length = n) ∧
    (groupCols n (ts.map decode)).flatten = (ts.map decode).take (n * (ts.length / n)) := by
  refine ⟨?_, ?_, ?_, ?_⟩
  · simp only [_parse_response, hsplit, h0, h1]
    simp
  · have := groupColsAux_length n hn (ts.map decode).length (ts.map decode) le_rfl
    simpa [groupCols, List.length_map] using this
  · exact groupColsAux_row_length n hn (ts.map decode).length (ts.map decode) le_rfl
  · have := groupColsAux_join n hn (ts.map decode).length (ts.map decode) le_rfl
    simpa [groupCols, List.length_map] using this

/-- Witness for the C6 amended theorem at the uneven frame: status 0,
two columns, tokens a, b, c. -/
theorem parse_response_row_grouping_witness :
    _parse_response rawUneven = .ok (groupCols 2 ([[97], [98], [99]].map decode)) ∧
    (groupCols 2 ([[97], [98], [99]].map decode)).length = ([[97], [98], [99]] : List (List Nat)).length / 2 ∧
    (∀ r ∈ groupCols 2 ([[97], [98], [99]].map decode), r.length = 2) ∧
    (groupCols 2 ([[97], [98], [99]].map decode)).flatten =
      (([[97], [98], [99]] : List (List Nat)).map decode).take (2 * (([[97], [98], [99]] : List (List Nat)).length / 2)) :=
  parse_response_row_grouping rawUneven [48] [50] [[97], [98], [99]] 2 rfl rfl rfl (by decide)

/-- C9 (confirmed): `find_modify` rejects with `ValueError`, before any
network exchange and without touching the pool state, whenever the
comparison operator is outside the allowed five, or the modify operator
is not one of U, D, +, - optionally suffixed with a question mark, or the
column list is empty, or the modify operator requires substituted values
(update/increment/decrement, i.e. not plain delete) while the
modify-column list is empty. -/
theorem find_modify_validation_spec (w : World) (now : Nat) (order : List Nat)
    (st : PoolState) (iid : Nat) (operation : List Nat) (columns : List (Option (List Nat)))
    (modify_operation : List Nat) (modify_columns : List (Option (List Nat)))
    (limit offset : Nat)
    (h : operation ∉ FIND_OPERATIONS ∨ modify_operation ∉ MODIFY_OPERATIONS ∨ columns = [] ∨
        (modify_operation ∈ MODIFY_VALUE_OPERATIONS ∧ modify_columns = [])) :
    resultErr (find_modify w now order st iid operation columns modify_operation
        modify_columns limit offset).1 isValueError = true ∧
    (find_modify w now order st iid operation columns modify_operation
        modify_columns limit offset).2 = st := by
  unfold find_modify
  split_ifs with h1 h2 h3
  · exact ⟨rfl, rfl⟩
  · exact ⟨rfl, rfl⟩
  · exact ⟨rfl, rfl⟩
  · exfalso
    push_neg at h1
    rcases h with h | h | h | h
    · exact h h1.1
    · exact h h1.2
    · subst h
      exact h2 rfl
    · rcases h with ⟨hmem, hmc⟩
      subst hmc
      exact h3 ⟨hmem, rfl⟩

/-- Witness for C9: an unsupported comparison operator is rejected with
`ValueError` and the state returned unchanged. -/
theorem find_modify_validation_spec_witness :
    resultErr (find_modify wQuiet 0 [] stFresh 0 [33] [some [49]] [85]
        [some [50]] 1 0).1 isValueError = true ∧
    (find_modify wQuiet 0 [] stFresh 0 [33] [some [49]] [85] [some [50]] 1 0).2 = stFresh :=
  find_modify_validation_spec wQuiet 0 [] stFresh 0 [33] [some [49]] [85] [some [50]] 1 0
    (Or.inl (by decide))

/-- Writing a key makes it the first binding found. -/
theorem dget_dset (d : List (Nat × Nat)) (k v : Nat) : dget (dset d k v) k = some v := by
  simp [dget, dset, ddel, List.find?]

/-- A freshly written key is present. -/
theorem dhas_dset (d : List (Nat × Nat)) (k v : Nat) : dhas (dset d k v) k = true := by
  simp [dhas, dset, ddel, List.find?]

/-- An absent key has no find result. -/
theorem find?_none_of_not_dhas (d : List (Nat × Nat)) (k : Nat)
    (h : dhas d k = false) : d.find? (fun p => p.1 == k) = none := by
  unfold dhas at h
  cases hf : d.find? (fun p => p.1 == k) with
  | none => rfl
  | some p =>
    rw [hf] at h
    simp at h

/-- An absent key reads as `None`. -/
theorem dget_eq_none_of_not_dhas (d : List (Nat × Nat)) (k : Nat)
    (h : dhas d k = false) : dget d k = none := by
  unfold dget
  rw [find?_none_of_not_dhas d k h]
  rfl

/-- Deleting an absent key leaves the dict unchanged. -/
theorem ddel_of_not_dhas (d : List (Nat × Nat)) (k : Nat)
    (h : dhas d k = false) : ddel d k = d := by
  unfold ddel
  exact List.eraseP_of_forall_not (List.find?_eq_none.mp (find?_none_of_not_dhas d k h))

/-- Deleting a key right after writing it removes exactly that binding. -/
theorem ddel_dset (d : List (Nat × Nat)) (k v : Nat) : ddel (dset d k v) k = ddel d k := by
  unfold dset ddel
  rw [List.eraseP_cons_of_pos (by simp)]

/-- The cache-deletion loop is a no-op, raising nothing, when no cache
entry maps to the purged id. -/
theorem purgeCacheLoop_no_match (iid : Nat) :
    ∀ (items d : List (List Nat × Nat)),
      (∀ p ∈ items, p.2 ≠ iid) → purgeCacheLoop iid items false d = (d, none) := by
  intro items
  induction items with
  | nil =>
    intro d _
    rfl
  | cons p rest ih =>
    intro d h
    obtain ⟨k, v⟩ := p
    have hv : ¬v = iid := h (k, v) (List.mem_cons_self _ _)
    simp only [purgeCacheLoop, Bool.false_eq_true, if_false, if_neg hv]
    exact ih d fun q hq => h q (List.mem_cons_of_mem _ hq)

/-- When the purged id is registered and no cache key maps to it,
`purge_index` terminates normally, removing only the map entry. -/
theorem purge_index_clean (st : PoolState) (iid : Nat)
    (hhas : dhas st.index_map iid = true)
    (hc : ∀ p ∈ st.index_cache, p.2 ≠ iid) :
    purge_index st iid = ({ st with index_map := ddel st.index_map iid }, none) := by
  unfold purge_index
  rw [if_neg (by simp [hhas])]
  dsimp only
  have hloop : purgeCacheLoop iid st.index_cache false st.index_cache =
      (st.index_cache, none) := purgeCacheLoop_no_match iid st.index_cache st.index_cache hc
  rw [hloop]

/-- The retry loop without affinity never touches the index map, the
index cache or the id counter, and its errors are connection-level (the
terminal `ConnectionError` or the slipped `AttributeError`), never
`OperationalError` and never `RecoverableConnectionError`. -/
theorem gcLoop_none_preserves (w : World) (now : Nat) (fuel : Nat) :
    ∀ (conn : Nat) (cands : List Nat) (st : PoolState),
      (gcLoop w now none fuel conn cands st).2.index_map = st.index_map ∧
      (gcLoop w now none fuel conn cands st).2.index_cache = st.index_cache ∧
      (gcLoop w now none fuel conn cands st).2.current_index_id = st.current_index_id ∧
      ∀ e, (gcLoop w now none fuel conn cands st).1 = .error e →
        isOpError e = false ∧ isRecov e = false := by
  induction fuel with
  | zero =>
    intro conn cands st
    refine ⟨rfl, rfl, rfl, fun e he => ?_⟩
    simp only [gcLoop] at he
    rcases h : st.last_exc with _ | m <;> rw [h] at he <;>
      · injection he with he
        subst he
        exact ⟨rfl, rfl⟩
  | succ fuel ih =>
    intro conn cands st
    simp only [gcLoop]
    rcases hr : is_ready now (getConn st conn) with ⟨ready, c1⟩
    cases ready
    · rcases hcand : cands.reverse with _ | ⟨nc, revRest⟩
      · exact ih conn cands (setConn st conn c1)
      · exact ih nc revRest.reverse (setConn st conn c1)
    · rcases hcc : connectConn w now conn c1 with ⟨c2, err⟩
      cases err with
      | none => exact ⟨rfl, rfl, rfl, fun e he => by cases he⟩
      | some msg =>
        rcases hcand : cands.reverse with _ | ⟨nc, revRest⟩
        · exact ih conn cands { setConn (setConn st conn c1) conn c2 with last_exc := some msg }
        · exact ih nc revRest.reverse { setConn (setConn st conn c1) conn c2 with last_exc := some msg }

/-- When the first candidate is ready and its connect succeeds, the
retry loop selects it on the first iteration, leaving the index map
unchanged. -/
theorem gcLoop_first_ready_success (w : World) (now : Nat) (forceIid : Option Nat)
    (fuel conn : Nat) (cands : List Nat) (st : PoolState)
    (hready : ¬((getConn st conn).retry_time ≠ 0 ∧ now < (getConn st conn).retry_time))
    (hconn : (getConn st conn).sock = true ∨ w.connectErr conn = none) :
    (gcLoop w now forceIid (fuel + 1) conn cands st).1 = .ok conn ∧
    (gcLoop w now forceIid (fuel + 1) conn cands st).2.index_map = st.index_map := by
  have hr : is_ready now (getConn st conn) = (true, ⟨(getConn st conn).sock, 0⟩) := by
    unfold is_ready
    rw [if_neg hready]
  have hcc : ∃ c2 : ConnState,
      connectConn w now conn ⟨(getConn st conn).sock, 0⟩ = (c2, none) := by
    cases hs : (getConn st conn).sock
    · have he : w.connectErr conn = none := by
        rcases hconn with h | h
        · rw [hs] at h
          exact absurd h (by simp)
        · exact h
      exact ⟨⟨true, 0⟩, by unfold connectConn; simp [he]⟩
    · exact ⟨⟨true, 0⟩, by unfold connectConn; simp⟩
  obtain ⟨c2, hcc⟩ := hcc
  simp only [gcLoop]
  rw [hr]
  dsimp only
  rw [hcc]
  exact ⟨rfl, rfl⟩

/-- C1 amended: a find/modify/insert call with affinity required against
a registered index id is routed to exactly the connection that opened it
provided that connection is ready (no backoff deadline pending at call
time) and its transport can be (re)established; the registration then
still maps the id to that connection afterwards. When the owner is in
backoff the loop instead falls over silently to other pool members (see
the counterexample). All builder calls reach this routing through
`_call` with `force_index` set. -/
theorem affinity_routing_when_owner_ready (w : World) (now : Nat) (order : List Nat)
    (st : PoolState) (iid owner : Nat)
    (hreg : dget st.index_map iid = some owner)
    (hready : (getConn st owner).retry_time = 0 ∨ (getConn st owner).retry_time ≤ now)
    (hconn : (getConn st owner).sock = true ∨ w.connectErr owner = none) :
    (_get_connection w now order st (some iid) true).1 = .ok owner ∧
    dget (_get_connection w now order st (some iid) true).2.index_map iid = some owner := by
  have hready' : ¬((getConn st owner).retry_time ≠ 0 ∧ now < (getConn st owner).retry_time) := by
    rintro ⟨h1, h2⟩
    rcases hready with h | h
    · exact h1 h
    · omega
  have hk : max RETRY_LIMIT order.length = (max RETRY_LIMIT order.length - 1) + 1 := by
    have h5 : RETRY_LIMIT ≤ max RETRY_LIMIT order.length := Nat.le_max_left _ _
    have h0 : 0 < RETRY_LIMIT := by norm_num [RETRY_LIMIT]
    omega
  unfold _get_connection
  dsimp only
  rw [hreg]
  dsimp only
  rw [show (if true = true then some iid else none) = some iid from rfl, hk]
  obtain ⟨h1, h2⟩ := gcLoop_first_ready_success w now (some iid)
    (max RETRY_LIMIT order.length - 1) owner order st hready' hconn
  rcases hg : gcLoop w now (some iid) ((max RETRY_LIMIT order.length - 1) + 1) owner order st
    with ⟨res, stg⟩
  rw [hg] at h1 h2
  dsimp only at h1 h2
  subst h1
  dsimp only
  exact ⟨rfl, by rw [dget_dset]⟩

/-- Witness for the C1 amended theorem: with the owner registered, ready
and connectable, the affinity-required resolution returns the owner and
keeps the registration. -/
theorem affinity_routing_when_owner_ready_witness :
    (_get_connection wQuiet 0 [0] stOwnerReady (some 0) true).1 = .ok 0 ∧
    dget (_get_connection wQuiet 0 [0] stOwnerReady (some 0) true).2.index_map 0 = some 0 :=
  affinity_routing_when_owner_ready wQuiet 0 [0] stOwnerReady 0 0 rfl (Or.inl rfl) (Or.inr rfl)

/-- Response-parsing failures are `OperationalError`, `ValueError` or
`IndexError`, never a `ConnectionError` (so `_call` does not catch
them). -/
theorem _parse_response_not_conn (raw : List Nat) (e : PErr)
    (h : _parse_response raw = .error e) : isConnErr e = false := by
  simp only [_parse_response] at h
  rcases hs : splitTab raw with _ | ⟨t0, rest⟩ <;> simp only [hs] at h
  · injection h with h
    subst h
    rfl
  · rcases hb : bytesToNat t0 with _ | s <;> simp only [hb] at h
    · injection h with h
      subst h
      rfl
    · by_cases hz : s ≠ 0
      · rw [if_pos hz] at h
        injection h with h
        subst h
        rfl
      · rw [if_neg hz] at h
        rcases hr : rest with _ | ⟨t1, data⟩ <;> simp only [hr] at h
        · injection h with h
          subst h
          rfl
        · rcases hb1 : bytesToNat t1 with _ | n <;> simp only [hb1] at h
          · injection h with h
            subst h
            rfl
          · exact absurd h (by simp)

/-- The non-affinity entry of connection resolution: on failure nothing
but connection states and the cached exception changed, and the error is
never operational or recoverable; on success only the id-to-connection
binding for the requested id is added. -/
theorem _gc_fresh_spec (w : World) (now : Nat) (order : List Nat) (st : PoolState)
    (index_id : Option Nat) :
    (∀ e st', _gc_fresh w now order st index_id = (.error e, st') →
      st'.index_map = st.index_map ∧ st'.index_cache = st.index_cache ∧
      st'.current_index_id = st.current_index_id ∧ isOpError e = false ∧ isRecov e = false) ∧
    (∀ conn st', _gc_fresh w now order st index_id = (.ok conn, st') →
      st'.index_map = (match index_id with
        | some iid => dset st.index_map iid conn
        | none => st.index_map) ∧
      st'.index_cache = st.index_cache ∧ st'.current_index_id = st.current_index_id) := by
  unfold _gc_fresh
  rcases ho : order.reverse with _ | ⟨c0, revRest⟩
  · constructor
    · intro e st' h
      injection h with h1 h2
      injection h1 with h1
      subst h1
      subst h2
      exact ⟨rfl, rfl, rfl, rfl, rfl⟩
    · intro conn st' h
      injection h with h1 h2
      exact absurd h1 (by simp)
  · obtain ⟨hm, hc, hcnt, herr⟩ :=
      gcLoop_none_preserves w now (max RETRY_LIMIT revRest.reverse.length) c0 revRest.reverse st
    rcases hg : gcLoop w now none (max RETRY_LIMIT revRest.reverse.length) c0 revRest.reverse st
      with ⟨res, stg⟩
    rw [hg] at hm hc hcnt herr
    dsimp only at hm hc hcnt herr
    cases res with
    | ok conn =>
      constructor
      · intro e st' h
        dsimp only at h
        rw [hg] at h
        dsimp only at h
        injection h with h1 h2
        exact absurd h1 (by simp)
      · intro conn' st' h
        dsimp only at h
        rw [hg] at h
        dsimp only at h
        injection h with h1 h2
        injection h1 with h1
        subst h1
        subst h2
        refine ⟨?_, hc, hcnt⟩
        cases index_id with
        | some iid =>
          dsimp only
          rw [hm]
        | none =>
          dsimp only
          exact hm
    | error e0 =>
      constructor
      · intro e st' h
        dsimp only at h
        rw [hg] at h
        dsimp only at h
        injection h with h1 h2
        injection h1 with h1
        subst h1
        subst h2
        obtain ⟨hop, hrec⟩ := herr e0 rfl
        exact ⟨hm, hc, hcnt, hop, hrec⟩
      · intro conn st' h
        dsimp only at h
        rw [hg] at h
        dsimp only at h
        injection h with h1 h2
        exact absurd h1 (by simp)

/-- A failing `_call` without affinity on an id absent from both caches
leaves the id counter and the index cache unchanged; after a
connection-level failure the id is absent from the index map (purged),
while after an `OperationalError` (error response) the id is still
registered in the index map. -/
theorem _call_error_nonaffine (w : World) (now : Nat) (order : List Nat) (st : PoolState)
    (iid : Nat) (query : List (List Nat)) (e : PErr) (st' : PoolState)
    (hm : dhas st.index_map iid = false)
    (hc : ∀ p ∈ st.index_cache, p.2 ≠ iid)
    (hrun : _call w now order st iid query false = (.error e, st')) :
    st'.current_index_id = st.current_index_id ∧
    st'.index_cache = st.index_cache ∧
    (isConnErr e = true → dhas st'.index_map iid = false) ∧
    (isOpError e = true → dhas st'.index_map iid = true) := by
  unfold _call _get_connection at hrun
  dsimp only at hrun
  rw [dget_eq_none_of_not_dhas st.index_map iid hm] at hrun
  dsimp only at hrun
  obtain ⟨specErr, specOk⟩ := _gc_fresh_spec w now order st (some iid)
  rcases hgf : _gc_fresh w now order st (some iid) with ⟨res, stg⟩
  rw [hgf] at hrun
  cases res with
  | error e0 =>
    injection hrun with h1 h2
    injection h1 with h1
    subst h1
    subst h2
    obtain ⟨hmap, hcache, hcnt, hop, _⟩ := specErr e0 stg hgf
    refine ⟨hcnt, hcache, fun _ => ?_, fun hopE => ?_⟩
    · rw [hmap]
      exact hm
    · rw [hop] at hopE
      exact absurd hopE (by simp)
  | ok conn =>
    obtain ⟨hmap, hcache, hcnt⟩ := specOk conn stg hgf
    dsimp only at hmap
    revert hrun
    rw [show (if false = true
          then ((Except.error (PErr.opError "There is no connection with given index id") :
            Except PErr Nat), st)
          else ((Except.ok conn : Except PErr Nat), stg)) =
        ((Except.ok conn : Except PErr Nat), stg) from rfl]
    dsimp only
    cases hresp : w.resp conn query with
    | reply raw =>
      dsimp only
      cases hp : _parse_response raw with
      | error pe =>
        dsimp only
        intro hrun
        injection hrun with h1 h2
        injection h1 with h1
        subst h1
        subst h2
        refine ⟨hcnt, hcache, fun hce => ?_, fun _ => ?_⟩
        · rw [_parse_response_not_conn raw pe hp] at hce
          exact absurd hce (by simp)
        · rw [hmap]
          exact dhas_dset _ _ _
      | ok rows =>
        dsimp only
        intro hrun
        injection hrun with h1 h2
        exact absurd h1 (by simp)
    | connFail msg =>
      dsimp only
      have hhas2 : dhas (setConn stg conn ⟨false, now + RETRY_INTERVAL⟩).index_map iid = true := by
        show dhas stg.index_map iid = true
        rw [hmap]
        exact dhas_dset _ _ _
      have hc2 : ∀ p ∈ (setConn stg conn ⟨false, now + RETRY_INTERVAL⟩).index_cache,
          p.2 ≠ iid := by
        show ∀ p ∈ stg.index_cache, p.2 ≠ iid
        rw [hcache]
        exact hc
      rw [purge_index_clean _ iid hhas2 hc2]
      dsimp only
      intro hrun
      injection hrun with h1 h2
      injection h1 with h1
      subst h1
      subst h2
      have hmap' : ddel (setConn stg conn ⟨false, now + RETRY_INTERVAL⟩).index_map iid =
          st.index_map := by
        show ddel stg.index_map iid = st.index_map
        rw [hmap, ddel_dset, ddel_of_not_dhas st.index_map iid hm]
      refine ⟨hcnt, hcache, fun _ => ?_, fun hopE => ?_⟩
      · show dhas (ddel (setConn stg conn ⟨false, now + RETRY_INTERVAL⟩).index_map iid) iid = false
        rw [hmap']
        exact hm
      · exact absurd hopE (by simp [isOpError])
    | peerClosed =>
      dsimp only
      have hhas2 : dhas stg.index_map iid = true := by
        rw [hmap]
        exact dhas_dset _ _ _
      have hc2 : ∀ p ∈ stg.index_cache, p.2 ≠ iid := by
        rw [hcache]
        exact hc
      rw [purge_index_clean stg iid hhas2 hc2]
      dsimp only
      intro hrun
      injection hrun with h1 h2
      injection h1 with h1
      subst h1
      subst h2
      refine ⟨hcnt, hcache, fun _ => ?_, fun hopE => ?_⟩
      · show dhas (ddel stg.index_map iid) iid = false
        rw [hmap, ddel_dset, ddel_of_not_dhas st.index_map iid hm]
        exact hm
      · exact absurd hopE (by simp [isOpError])

/-- C2 amended: on a cache miss, when the index open fails with a
connection-level failure (connect exhaustion, send/read socket failure,
or peer close), the pool holds no partial registration afterwards: the
id counter is unchanged, the key cache is unchanged (so it lacks the new
entry), and the id-to-connection map does not contain the new id. When
the open instead fails because the server returns an error response
(`OperationalError`), the id-to-connection map retains the entry created
during connection resolution while the key cache does not — a partial
registration (see the counterexample) — though the counter is still
unchanged. -/
theorem get_index_id_failure_atomicity (w : World) (now : Nat) (order : List Nat)
    (st : PoolState) (db table : List Nat) (fields : List (List Nat))
    (index_name : Option (List Nat)) (e : PErr) (st' : PoolState)
    (hm : dhas st.index_map st.current_index_id = false)
    (hc : ∀ p ∈ st.index_cache, p.2 ≠ st.current_index_id)
    (hrun : get_index_id w now order st db table fields index_name = (.error e, st')) :
    st'.current_index_id = st.current_index_id ∧
    st'.index_cache = st.index_cache ∧
    (isConnErr e = true → dhas st'.index_map st.current_index_id = false) ∧
    (isOpError e = true → dhas st'.index_map st.current_index_id = true) := by
  simp only [get_index_id, _open_index] at hrun
  rcases hcg : cget st.index_cache
      (List.intercalate [58] [db, table, primary_or index_name,
        List.intercalate [44] fields]) with _ | iidHit
  · rw [hcg] at hrun
    dsimp only at hrun
    rcases hcall : _call w now order st st.current_index_id
        ([[80], natToBytes st.current_index_id] ++
          [encode (some db), encode (some table), encode (some (primary_or index_name)),
            encode (some (List.intercalate [44] fields))]) false with ⟨res, stc⟩
    rw [hcall] at hrun
    cases res with
    | error e0 =>
      dsimp only at hrun
      injection hrun with h1 h2
      injection h1 with h1
      subst h1
      subst h2
      exact _call_error_nonaffine w now order st st.current_index_id _ _ _ hm hc hcall
    | ok rows =>
      dsimp only at hrun
      injection hrun with h1 h2
      exact absurd h1 (by simp)
  · rw [hcg] at hrun
    dsimp only at hrun
    injection hrun with h1 h2
    exact absurd h1 (by simp)

/-- Witness for the C2 amended theorem: a fresh pool whose only
connection accepts the open query but fails during the exchange; the
resulting terminal connection error leaves counter, cache and map
exactly as required. -/
theorem get_index_id_failure_atomicity_witness :
    (⟨[⟨false, 30⟩], [], [], 0, none⟩ : PoolState).current_index_id = stFresh.current_index_id ∧
    (⟨[⟨false, 30⟩], [], [], 0, none⟩ : PoolState).index_cache = stFresh.index_cache ∧
    (isConnErr (.connError "boom") = true →
      dhas (⟨[⟨false, 30⟩], [], [], 0, none⟩ : PoolState).index_map stFresh.current_index_id = false) ∧
    (isOpError (.connError "boom") = true →
      dhas (⟨[⟨false, 30⟩], [], [], 0, none⟩ : PoolState).index_map stFresh.current_index_id = true) :=
  get_index_id_failure_atomicity wConnFail 0 [0] stFresh [100] [116] [[102]] none
    (.connError "boom") ⟨[⟨false, 30⟩], [], [], 0, none⟩ rfl (by simp [stFresh]) rfl

end PyHS
